import Mathlib

set_option maxRecDepth 100000

/-!
Verification development for the SentinalAiAudit video-analysis pipeline
(`src/services/geminiService.ts`, main variant).

The TypeScript pipeline is shallowly embedded: the orchestrator
`analyzeVideoContent`, the staged-upload poller `waitForFileActive`, and the
credential resolution are translated as pure Lean functions over an explicit
environment of collaborator responses (upload result, poll states, model
response).  Network calls and progress-callback invocations are recorded as an
explicit event trace.  The host runtime's `JSON.parse` builtin (an external
collaborator of the repository) is modelled by an executable JSON parser over
the standard JSON grammar, with numbers represented exactly as rationals.
-/

namespace Sentinal

/-! ## JSON values (the result of the host JSON.parse builtin) -/

/-- A parsed JSON value.  A numeric literal is kept exactly as the pair
`(mant, exp10)` denoting `mant * 10 ^ exp10` (JSON numbers are decimal; the
pipeline performs no arithmetic on them, so this exact representation is
faithful for pass-through properties). -/
inductive JVal where
  | jnull
  | jbool (b : Bool)
  | jnum (mant exp10 : Int)
  | jstr (s : String)
  | jarr (xs : List JVal)
  | jobj (kvs : List (String × JVal))
deriving Repr

/-- The exact rational value denoted by a `JVal.jnum mant exp10`. -/
def jnumVal (mant exp10 : Int) : Rat :=
  (mant : Rat) * (10 : Rat) ^ exp10

/-! ## JSON parser, modelling the host JSON.parse collaborator.

`JSON.parse` is a standard ECMAScript builtin consumed by the repository, not
code of the repository; it is embedded here as a recursive-descent parser over
the JSON grammar (RFC 8259): optional whitespace, `null`/`true`/`false`
literals, strings with escapes, numbers with optional fraction and exponent,
arrays, and objects.  `none` models a thrown SyntaxError. -/

def lbrace : Char := Char.ofNat 123

def rbrace : Char := Char.ofNat 125

/-- JSON whitespace: space, tab, line feed, carriage return. -/
def isJsonWs (c : Char) : Bool :=
  c = ' ' || c = '\t' || c = '\n' || c = '\r'

def skipWs : List Char → List Char
  | [] => []
  | c :: rest => if isJsonWs c then skipWs rest else c :: rest

/-- Consume a maximal run of decimal digits, returned as digit values. -/
def takeDigits : List Char → List Nat × List Char
  | [] => ([], [])
  | c :: rest =>
    if c.isDigit then
      match takeDigits rest with
      | (ds, r) => ((c.toNat - 48) :: ds, r)
    else ([], c :: rest)

def digitsToNat (ds : List Nat) : Nat :=
  ds.foldl (fun a d => a * 10 + d) 0

/-- JSON integer part: `0`, or a nonzero digit followed by digits
(leading zeros are not permitted by the grammar). -/
def parseIntPart : List Char → Option (Nat × List Char)
  | [] => none
  | c :: rest =>
    if c = '0' then some (0, rest)
    else if c.isDigit then
      match takeDigits rest with
      | (ds, r) => some (digitsToNat ((c.toNat - 48) :: ds), r)
    else none

/-- Optional fraction part: `.` followed by at least one digit. -/
def parseFracPart (cs : List Char) : Option (List Nat × List Char) :=
  match cs with
  | '.' :: rest =>
    match takeDigits rest with
    | ([], _) => none
    | (ds, r) => some (ds, r)
  | _ => some ([], cs)

/-- Optional exponent part: `e`/`E`, optional sign, at least one digit. -/
def parseExpPart (cs : List Char) : Option (Int × List Char) :=
  match cs with
  | c :: rest =>
    if c = 'e' || c = 'E' then
      match rest with
      | '+' :: r2 =>
        (match takeDigits r2 with
         | ([], _) => none
         | (ds, r) => some ((digitsToNat ds : Int), r))
      | '-' :: r2 =>
        (match takeDigits r2 with
         | ([], _) => none
         | (ds, r) => some (-(digitsToNat ds : Int), r))
      | r2 =>
        (match takeDigits r2 with
         | ([], _) => none
         | (ds, r) => some ((digitsToNat ds : Int), r))
    else some (0, cs)
  | [] => some (0, [])

/-- Mantissa of a JSON numeric literal: integer part and fraction digits
fused into one integer, with the sign applied. -/
def numMant (neg : Bool) (ip : Nat) (fds : List Nat) : Int :=
  let m : Int := Int.ofNat (ip * 10 ^ fds.length + digitsToNat fds)
  if neg then -m else m

/-- Decimal exponent of a JSON numeric literal: the written exponent minus
the number of fraction digits. -/
def numExp10 (fds : List Nat) (e : Int) : Int :=
  e - fds.length

def parseNumber (cs : List Char) : Option ((Int × Int) × List Char) :=
  let sgn : Bool × List Char :=
    match cs with
    | '-' :: r => (true, r)
    | _ => (false, cs)
  match parseIntPart sgn.2 with
  | none => none
  | some (ip, cs2) =>
    match parseFracPart cs2 with
    | none => none
    | some (fds, cs3) =>
      match parseExpPart cs3 with
      | none => none
      | some (e, cs4) => some ((numMant sgn.1 ip fds, numExp10 fds e), cs4)

def hexDigitVal (c : Char) : Option Nat :=
  if c.isDigit then some (c.toNat - 48)
  else if 'a' ≤ c ∧ c ≤ 'f' then some (c.toNat - 97 + 10)
  else if 'A' ≤ c ∧ c ≤ 'F' then some (c.toNat - 65 + 10)
  else none

/-- String body after the opening quote, with JSON escapes.  Control
characters below U+0020 are invalid inside a JSON string.  `fuel` bounds
recursion; it is instantiated above the input length so it never runs out. -/
def parseStringBody : Nat → List Char → Option (List Char × List Char)
  | 0, _ => none
  | _ + 1, [] => none
  | fuel + 1, c :: rest =>
    if c = '"' then some ([], rest)
    else if c = '\\' then
      match rest with
      | [] => none
      | e :: rest2 =>
        if e = '"' ∨ e = '\\' ∨ e = '/' then
          match parseStringBody fuel rest2 with
          | none => none
          | some (s, r) => some (e :: s, r)
        else if e = 'b' then
          (match parseStringBody fuel rest2 with
           | none => none
           | some (s, r) => some (Char.ofNat 8 :: s, r))
        else if e = 'f' then
          (match parseStringBody fuel rest2 with
           | none => none
           | some (s, r) => some (Char.ofNat 12 :: s, r))
        else if e = 'n' then
          (match parseStringBody fuel rest2 with
           | none => none
           | some (s, r) => some ('\n' :: s, r))
        else if e = 'r' then
          (match parseStringBody fuel rest2 with
           | none => none
           | some (s, r) => some ('\r' :: s, r))
        else if e = 't' then
          (match parseStringBody fuel rest2 with
           | none => none
           | some (s, r) => some ('\t' :: s, r))
        else if e = 'u' then
          match rest2 with
          | h1 :: h2 :: h3 :: h4 :: rest3 =>
            (match hexDigitVal h1, hexDigitVal h2, hexDigitVal h3, hexDigitVal h4 with
             | some a, some b, some c3, some d =>
               (match parseStringBody fuel rest3 with
                | none => none
                | some (s, r) =>
                  some (Char.ofNat (((a * 16 + b) * 16 + c3) * 16 + d) :: s, r))
             | _, _, _, _ => none)
          | _ => none
        else none
    else if c.toNat < 32 then none
    else
      match parseStringBody fuel rest with
      | none => none
      | some (s, r) => some (c :: s, r)

mutual

/-- Parse a single JSON value (after skipping leading whitespace). -/
def parseValueF : Nat → List Char → Option (JVal × List Char)
  | 0, _ => none
  | fuel + 1, cs0 =>
    match skipWs cs0 with
    | [] => none
    | c :: rest =>
      if c = '"' then
        match parseStringBody fuel rest with
        | none => none
        | some (s, r) => some (.jstr (String.mk s), r)
      else if c = lbrace then parseObjectF fuel rest
      else if c = '[' then parseArrayF fuel rest
      else if c = 'n' then
        match c :: rest with
        | 'n' :: 'u' :: 'l' :: 'l' :: r => some (.jnull, r)
        | _ => none
      else if c = 't' then
        match c :: rest with
        | 't' :: 'r' :: 'u' :: 'e' :: r => some (.jbool true, r)
        | _ => none
      else if c = 'f' then
        match c :: rest with
        | 'f' :: 'a' :: 'l' :: 's' :: 'e' :: r => some (.jbool false, r)
        | _ => none
      else if c = '-' || c.isDigit then
        match parseNumber (c :: rest) with
        | none => none
        | some ((m, e), r) => some (.jnum m e, r)
      else none

/-- Parse the contents of an array after the opening `[`. -/
def parseArrayF : Nat → List Char → Option (JVal × List Char)
  | 0, _ => none
  | fuel + 1, cs0 =>
    match skipWs cs0 with
    | ']' :: rest => some (.jarr [], rest)
    | cs1 =>
      match parseValueF fuel cs1 with
      | none => none
      | some (v, r) => parseArrayRestF fuel [v] r

/-- Parse `, value`* `]` continuing an array whose first elements (reversed)
are in `acc`. -/
def parseArrayRestF : Nat → List JVal → List Char → Option (JVal × List Char)
  | 0, _, _ => none
  | fuel + 1, acc, cs0 =>
    match skipWs cs0 with
    | ']' :: rest => some (.jarr acc.reverse, rest)
    | ',' :: rest =>
      (match parseValueF fuel rest with
       | none => none
       | some (v, r) => parseArrayRestF fuel (v :: acc) r)
    | _ => none

/-- Parse the contents of an object after the opening brace. -/
def parseObjectF : Nat → List Char → Option (JVal × List Char)
  | 0, _ => none
  | fuel + 1, cs0 =>
    match skipWs cs0 with
    | c :: rest =>
      if c = rbrace then some (.jobj [], rest)
      else if c = '"' then
        match parseStringBody fuel rest with
        | none => none
        | some (k, r1) =>
          match skipWs r1 with
          | ':' :: r2 =>
            (match parseValueF fuel r2 with
             | none => none
             | some (v, r3) => parseMembersF fuel [(String.mk k, v)] r3)
          | _ => none
      else none
    | [] => none

/-- Parse `, "key": value`* and the closing brace, continuing an object whose
first members (reversed) are in `acc`. -/
def parseMembersF : Nat → List (String × JVal) → List Char → Option (JVal × List Char)
  | 0, _, _ => none
  | fuel + 1, acc, cs0 =>
    match skipWs cs0 with
    | c :: rest =>
      if c = rbrace then some (.jobj acc.reverse, rest)
      else if c = ',' then
        match skipWs rest with
        | '"' :: r1 =>
          (match parseStringBody fuel r1 with
           | none => none
           | some (k, r2) =>
             match skipWs r2 with
             | ':' :: r3 =>
               (match parseValueF fuel r3 with
                | none => none
                | some (v, r4) => parseMembersF fuel ((String.mk k, v) :: acc) r4)
             | _ => none)
        | _ => none
      else none
    | [] => none

end

/-- The host `JSON.parse` builtin: parses the whole string as one JSON value
with optional surrounding whitespace; `none` models a thrown SyntaxError. -/
def jsonParse (s : String) : Option JVal :=
  match parseValueF (4 * (s.length + 1)) s.data with
  | none => none
  | some (v, rest) => if skipWs rest = [] then some v else none

/-! ## Error taxonomy of the pipeline

Each constructor corresponds to one distinct `throw` site of
`analyzeVideoContent` / its helpers (`src/services/geminiService.ts`); the
message templates are reproduced by `errorMessage`. -/

inductive AnalysisError where
  /-- Line 86: `API Key is missing. ...` -/
  | missingApiKey
  /-- `fileToGenerativePart` rejection: null reader result or reader error. -/
  | fileReadFailed (msg : String)
  /-- Line 146: upload failed and the file is at or above the 500MB
  inline-fallback limit; carries the file size in bytes. -/
  | uploadTooLarge (sizeBytes : Nat)
  /-- Line 42 (`waitForFileActive`): non-ACTIVE terminal state. -/
  | processingFailed (state : String)
  /-- Error thrown by the remote inference call and rethrown unchanged. -/
  | transport (msg : String)
  /-- Line 180: `No response from model`. -/
  | noResponse
  /-- SyntaxError thrown by `JSON.parse` on line 182. -/
  | parseError
deriving DecidableEq, Repr

/-- `file.size/1024/1024` is exact in binary floating point (sizes are
integers below 2^53), and `toFixed(0)` rounds to the nearest integer picking
the larger on ties: round half up. -/
def mbRounded (sizeBytes : Nat) : Nat :=
  (sizeBytes + 524288) / 1048576

/-- The literal message of each throw site in the source. -/
def errorMessage : AnalysisError → String
  | .missingApiKey =>
      "API Key is missing. Please click the Key icon in the top right to configure it."
  | .fileReadFailed m => m
  | .uploadTooLarge n =>
      "File upload failed and file is too large for browser processing (" ++
        toString (mbRounded n) ++ "MB). Try a smaller file."
  | .processingFailed st => "File processing failed with state: " ++ st
  | .transport m => m
  | .noResponse => "No response from model"
  | .parseError => "Unexpected token in JSON"

/-! ## Result-text handling (lines 179-182)

`const text = response.text; if (!text) throw new Error("No response from
model"); return JSON.parse(text) as AnalysisResult;` — `!text` is true for an
absent (`undefined`) and for an empty string. -/

/-- `none` models an absent `response.text`. -/
def parseModelResponse (text : Option String) : Except AnalysisError JVal :=
  match text with
  | none => .error .noResponse
  | some t =>
    if t = "" then .error .noResponse
    else
      match jsonParse t with
      | none => .error .parseError
      | some v => .ok v

/-! ## Credential resolution (lines 83-87)

`const apiKey = apiKeyOverride || process.env.API_KEY;` followed by
`if (!apiKey) throw ...`.  JavaScript `||` takes the right operand when the
left is falsy, and a string is falsy exactly when it is empty (an absent
value — `undefined` — is also falsy). -/

/-- JavaScript truthiness of an optional string: falsy iff absent or empty. -/
def jsFalsy (s : Option String) : Bool :=
  match s with
  | none => true
  | some t => t = ""

/-- JavaScript `a || b` on optional strings. -/
def jsOr (a b : Option String) : Option String :=
  if jsFalsy a then b else a

/-! ## The progress state machine (`AnalysisState` from `types.ts`,
as used by `App.tsx` and `geminiService.ts`). -/

inductive AnalysisState where
  | IDLE
  | UPLOADING
  | ANALYZING
  | COMPLETE
  | ERROR
deriving DecidableEq, Repr

/-- The video part placed into the inference request: the tagged union of the
embedded (inline base64) and staged (file reference) encodings. -/
inductive VideoPart where
  | inlineData (data mimeType : String)
  | fileData (fileUri mimeType : String)
deriving DecidableEq, Repr

/-- A network interaction with a collaborator. -/
inductive NetCall where
  | filesUpload
  | filesGet
  | generateContent (part : VideoPart)
deriving DecidableEq, Repr

/-- Observable actions of one `analyzeVideoContent` invocation, in order:
progress-callback invocations and network calls. -/
inductive Event where
  | progress (s : AnalysisState)
  | net (c : NetCall)
deriving DecidableEq, Repr

/-- The progress-callback invocation sequence of a trace. -/
def progressStates (evs : List Event) : List AnalysisState :=
  evs.filterMap fun e =>
    match e with
    | .progress s => some s
    | .net _ => none

/-! ## Staged upload poller (`waitForFileActive`, lines 28-45)

The `ai.files.get` collaborator is modelled by the list of successive
`state` strings it returns; the poller consumes one per call.  The code is:
initial 2000ms delay, one get, then while the state is `"PROCESSING"` a
3000ms delay and another get; a final state other than `"ACTIVE"` throws
`File processing failed with state: <state>`. -/

structure UploadedFile where
  name : String
  uri : String
  mimeType : String
deriving DecidableEq, Repr

/-- Outcome of running the polling loop against a finite prefix of the
status endpoint's responses. -/
structure PollRun where
  /-- `none`: every provided response was `"PROCESSING"` and the loop is
  still polling.  `some (.ok ())`: the state reached `"ACTIVE"`.
  `some (.error e)`: a non-`ACTIVE` terminal state was reported. -/
  outcome : Option (Except AnalysisError Unit)
  /-- The timed delays performed, in order, in milliseconds. -/
  delaysMs : List Nat
  /-- The number of `ai.files.get` calls that received a response. -/
  getCalls : Nat
deriving Repr

/-- The loop body of `waitForFileActive`, acting on the most recent state and
the remaining responses: while the state is `"PROCESSING"`, delay 3000ms and
fetch again; then succeed on `"ACTIVE"` and fail naming any other state. -/
def pollStep : String → List String → PollRun
  | st, rest =>
    if st = "PROCESSING" then
      match rest with
      | [] => { outcome := none, delaysMs := [3000], getCalls := 0 }
      | s :: rest2 =>
        let r := pollStep s rest2
        { outcome := r.outcome, delaysMs := 3000 :: r.delaysMs, getCalls := r.getCalls + 1 }
    else
      { outcome := some (if st = "ACTIVE" then .ok () else .error (.processingFailed st)),
        delaysMs := [], getCalls := 0 }

/-- `waitForFileActive`: initial 2000ms delay, first `ai.files.get`, then the
polling loop. -/
def waitForFileActive (states : List String) : PollRun :=
  match states with
  | [] => { outcome := none, delaysMs := [2000], getCalls := 0 }
  | s :: rest =>
    let r := pollStep s rest
    { outcome := r.outcome, delaysMs := 2000 :: r.delaysMs, getCalls := r.getCalls + 1 }

/-! ## The orchestrator (`analyzeVideoContent`, lines 77-188)

Collaborator behaviour is supplied as an explicit environment; the
orchestrator returns the outcome together with the trace of observable
events.  An outcome of `none` means the invocation is still inside the
unbounded polling loop after consuming every provided status response. -/

structure FileInfo where
  size : Nat
  name : String
  mimeType : String
deriving DecidableEq, Repr

structure Env where
  /-- `process.env.API_KEY` (`none` = unset). -/
  envApiKey : Option String
  /-- `fileToGenerativePart`: the base64 payload produced by the
  `FileReader`, or the failure message (`Failed to read file` when the
  reader yields a null result). -/
  fileRead : Except String String
  /-- Result of `ai.files.upload`: the uploaded-file record, or the message
  of the error the call threw. -/
  uploadResult : Except String UploadedFile
  /-- Successive `state` values returned by `ai.files.get`. -/
  pollStates : List String
  /-- Result of `ai.models.generateContent`: `response.text`
  (`none` = absent), or the message of the error the call threw. -/
  genResult : Except String (Option String)

structure RunResult where
  /-- `none`: still polling (the unbounded loop has not returned). -/
  outcome : Option (Except AnalysisError JVal)
  events : List Event
deriving Repr

/-- `PREFER_INLINE_THRESHOLD` (line 100): 50MB. -/
def PREFER_INLINE_THRESHOLD : Nat := 50 * 1024 * 1024

/-- `FORCE_INLINE_FALLBACK_LIMIT` (line 101): 500MB. -/
def FORCE_INLINE_FALLBACK_LIMIT : Nat := 500 * 1024 * 1024

/-- The final inference call (lines 163-182): one `generateContent` network
call carrying the chosen video part, then the response-text handling. -/
def runGenerate (env : Env) (part : VideoPart) (evs : List Event) : RunResult :=
  let evs2 := evs ++ [Event.net (.generateContent part)]
  match env.genResult with
  | .error m => { outcome := some (.error (.transport m)), events := evs2 }
  | .ok text => { outcome := some (parseModelResponse text), events := evs2 }

/-- The embedded path after `onProgress(ANALYZING)`: read/encode the file via
`fileToGenerativePart`, then invoke the model with the inline part. -/
def runInline (env : Env) (file : FileInfo) (evs : List Event) : RunResult :=
  match env.fileRead with
  | .error m => { outcome := some (.error (.fileReadFailed m)), events := evs }
  | .ok data => runGenerate env (.inlineData data file.mimeType) evs

/-- The inner catch block (lines 135-148): on any staged-path failure, fall
back to the inline encoding when the size is under
`FORCE_INLINE_FALLBACK_LIMIT` (emitting `ANALYZING`), otherwise throw the
size-quoting too-large error. -/
def fallbackOrFail (env : Env) (file : FileInfo) (evs : List Event) : RunResult :=
  if file.size < FORCE_INLINE_FALLBACK_LIMIT then
    runInline env file (evs ++ [Event.progress .ANALYZING])
  else
    { outcome := some (.error (.uploadTooLarge file.size)), events := evs }

/-- The staged path (lines 110-148): emit `UPLOADING`, call
`ai.files.upload`, poll with `waitForFileActive`, then emit `ANALYZING` and
invoke the model with the file reference; any failure inside is caught and
routed to `fallbackOrFail`. -/
def runStaged (env : Env) (file : FileInfo) (evs : List Event) : RunResult :=
  let evs1 := evs ++ [Event.progress .UPLOADING, Event.net .filesUpload]
  match env.uploadResult with
  | .error _ => fallbackOrFail env file evs1
  | .ok up =>
    let poll := waitForFileActive env.pollStates
    let evs2 := evs1 ++ List.replicate poll.getCalls (Event.net .filesGet)
    match poll.outcome with
    | none => { outcome := none, events := evs2 }
    | some (.error _) => fallbackOrFail env file evs2
    | some (.ok ()) =>
      runGenerate env (.fileData up.uri up.mimeType) (evs2 ++ [Event.progress .ANALYZING])

/-- `analyzeVideoContent`: resolve the credential (override `||` env var,
throwing when falsy), then dispatch on
`file.size < PREFER_INLINE_THRESHOLD` between the embedded and staged
paths.  The outer try/catch only logs and rethrows. -/
def analyzeVideoContent (file : FileInfo) (apiKeyOverride : Option String)
    (env : Env) : RunResult :=
  let apiKey := jsOr apiKeyOverride env.envApiKey
  if jsFalsy apiKey then
    { outcome := some (.error .missingApiKey), events := [] }
  else if file.size < PREFER_INLINE_THRESHOLD then
    runInline env file [Event.progress .ANALYZING]
  else
    runStaged env file []

/-! ## Concrete fixtures used to evaluate the pipeline at specific inputs -/

/-- A 5MB video file (embedded path). -/
def sampleSmallFile : FileInfo :=
  { size := 5 * 1024 * 1024, name := "clip.mp4", mimeType := "video/mp4" }

/-- A file exactly at the 500MB `FORCE_INLINE_FALLBACK_LIMIT`. -/
def sampleBigFile : FileInfo :=
  { size := FORCE_INLINE_FALLBACK_LIMIT, name := "cam.mp4", mimeType := "video/mp4" }

/-- A 600MB video file (above the 500MB limit). -/
def sampleHugeFile : FileInfo :=
  { size := 600 * 1024 * 1024, name := "long.mp4", mimeType := "video/mp4" }

def sampleUpload : UploadedFile :=
  { name := "files/abc", uri := "uri-abc", mimeType := "video/mp4" }

/-- Collaborators all succeed; the model answers with the JSON text `[]`. -/
def happyEnv : Env :=
  { envApiKey := none
    fileRead := .ok "QUJD"
    uploadResult := .ok sampleUpload
    pollStates := ["ACTIVE"]
    genResult := .ok (some "[]") }

/-- Like `happyEnv` but the staged upload call throws (e.g. CORS). -/
def uploadFailEnv : Env :=
  { happyEnv with uploadResult := .error "CORS" }

/-- A full model response whose reported severity is 4 (outside the
documented set) and whose confidence is 1.5 (outside the documented range). -/
def sampleResponseText : String :=
  "\x7b\"video_meta\":\x7b\"duration\":\"00:01\",\"lighting\":\"low\"\x7d,\"events\":[\x7b\"timestamp\":\"00:00:01\",\"severity\":4,\"classification\":\"X\",\"description\":\"d\",\"confidence\":1.5\x7d],\"summary\":\"s\"\x7d"

/-- The value `JSON.parse` yields for `sampleResponseText`. -/
def sampleResponseVal : JVal :=
  .jobj [("video_meta", .jobj [("duration", .jstr "00:01"), ("lighting", .jstr "low")]),
         ("events", .jarr [.jobj [("timestamp", .jstr "00:00:01"),
                                  ("severity", .jnum 4 0),
                                  ("classification", .jstr "X"),
                                  ("description", .jstr "d"),
                                  ("confidence", .jnum 15 (-1))]]),
         ("summary", .jstr "s")]

/-! ## Basic lemmas about the embedded definitions -/

theorem jsFalsy_jsOr (a b : Option String) :
    jsFalsy (jsOr a b) = (jsFalsy a && jsFalsy b) := by
  by_cases h : jsFalsy a = true
  · simp [jsOr, h]
  · simp only [Bool.not_eq_true] at h
    simp [jsOr, h]

theorem progressStates_append (a b : List Event) :
    progressStates (a ++ b) = progressStates a ++ progressStates b := by
  simp [progressStates, List.filterMap_append]

theorem progressStates_replicate_net (n : Nat) (c : NetCall) :
    progressStates (List.replicate n (Event.net c)) = [] := by
  induction n with
  | zero => rfl
  | succ m ih => rw [List.replicate_succ]; simp [progressStates, ih]

/-! ### Unfolding lemmas for the poller -/

theorem pollStep_cons_processing (s : String) (rest : List String) :
    pollStep "PROCESSING" (s :: rest) =
      { outcome := (pollStep s rest).outcome,
        delaysMs := 3000 :: (pollStep s rest).delaysMs,
        getCalls := (pollStep s rest).getCalls + 1 } := rfl

theorem pollStep_terminal (s : String) (rest : List String) (hs : ¬ s = "PROCESSING") :
    pollStep s rest =
      { outcome := some (if s = "ACTIVE" then .ok () else .error (.processingFailed s)),
        delaysMs := [], getCalls := 0 } := by
  rw [pollStep.eq_def]; dsimp only; rw [if_neg hs]

theorem waitForFileActive_nil :
    waitForFileActive [] = { outcome := none, delaysMs := [2000], getCalls := 0 } := rfl

theorem waitForFileActive_cons (s : String) (rest : List String) :
    waitForFileActive (s :: rest) =
      { outcome := (pollStep s rest).outcome,
        delaysMs := 2000 :: (pollStep s rest).delaysMs,
        getCalls := (pollStep s rest).getCalls + 1 } := rfl

theorem pollStep_replicate_processing (k : Nat) :
    pollStep "PROCESSING" (List.replicate k "PROCESSING") =
      { outcome := none, delaysMs := List.replicate (k + 1) 3000, getCalls := k } := by
  induction k with
  | zero => rfl
  | succ n ih =>
    rw [List.replicate_succ, pollStep_cons_processing, ih]; rfl

theorem pollStep_replicate_terminal (k : Nat) (s : String) (hs : ¬ s = "PROCESSING") :
    pollStep "PROCESSING" (List.replicate k "PROCESSING" ++ [s]) =
      { outcome := some (if s = "ACTIVE" then .ok () else .error (.processingFailed s)),
        delaysMs := List.replicate (k + 1) 3000,
        getCalls := k + 1 } := by
  induction k with
  | zero =>
    rw [List.replicate, List.nil_append, pollStep_cons_processing,
      pollStep_terminal s [] hs]; rfl
  | succ n ih =>
    rw [List.replicate_succ, List.cons_append, pollStep_cons_processing, ih]; rfl

/-! ### No downstream stage produces the missing-credential error -/

theorem parseModelResponse_ne_missing (t : Option String) :
    parseModelResponse t ≠ .error .missingApiKey := by
  rcases t with _ | t
  · simp [parseModelResponse]
  · by_cases h : t = ""
    · simp [parseModelResponse, h]
    · rcases hj : jsonParse t with _ | v <;> simp [parseModelResponse, h, hj]

theorem runGenerate_ne_missing (env : Env) (part : VideoPart) (evs : List Event) :
    (runGenerate env part evs).outcome ≠ some (.error .missingApiKey) := by
  rcases hg : env.genResult with m | text
  · simp [runGenerate, hg]
  · simpa [runGenerate, hg] using parseModelResponse_ne_missing text

theorem runInline_ne_missing (env : Env) (file : FileInfo) (evs : List Event) :
    (runInline env file evs).outcome ≠ some (.error .missingApiKey) := by
  rcases hf : env.fileRead with m | d
  · simp [runInline, hf]
  · simpa [runInline, hf] using runGenerate_ne_missing env (.inlineData d file.mimeType) evs

theorem fallbackOrFail_ne_missing (env : Env) (file : FileInfo) (evs : List Event) :
    (fallbackOrFail env file evs).outcome ≠ some (.error .missingApiKey) := by
  by_cases h : file.size < FORCE_INLINE_FALLBACK_LIMIT
  · simpa [fallbackOrFail, h] using
      runInline_ne_missing env file (evs ++ [Event.progress .ANALYZING])
  · simp [fallbackOrFail, h]

theorem runStaged_ne_missing (env : Env) (file : FileInfo) (evs : List Event) :
    (runStaged env file evs).outcome ≠ some (.error .missingApiKey) := by
  rcases hu : env.uploadResult with m | up
  · simpa [runStaged, hu] using fallbackOrFail_ne_missing env file _
  · rcases hp : (waitForFileActive env.pollStates).outcome with _ | e
    · simp [runStaged, hu, hp]
    · rcases e with e | u
      · simpa [runStaged, hu, hp] using fallbackOrFail_ne_missing env file _
      · simp only [runStaged, hu, hp]
        exact runGenerate_ne_missing env _ _

/-! ### Progress-trace characterization of each stage -/

theorem runGenerate_events (env : Env) (part : VideoPart) (evs : List Event) :
    (runGenerate env part evs).events = evs ++ [Event.net (.generateContent part)] := by
  rcases hg : env.genResult with m | t <;> simp [runGenerate, hg]

theorem runInline_progress (env : Env) (file : FileInfo) (evs : List Event) :
    progressStates (runInline env file evs).events = progressStates evs := by
  rcases hf : env.fileRead with m | d
  · simp [runInline, hf]
  · simp [runInline, hf, runGenerate_events, progressStates_append, progressStates]

theorem fallbackOrFail_progress (env : Env) (file : FileInfo) (evs : List Event) :
    progressStates (fallbackOrFail env file evs).events = progressStates evs ∨
    progressStates (fallbackOrFail env file evs).events =
      progressStates evs ++ [.ANALYZING] := by
  by_cases h : file.size < FORCE_INLINE_FALLBACK_LIMIT
  · right
    simp only [fallbackOrFail, if_pos h]
    rw [runInline_progress, progressStates_append]
    simp [progressStates]
  · left
    simp [fallbackOrFail, h]

theorem fallbackOrFail_success_progress (env : Env) (file : FileInfo) (evs : List Event)
    (v : JVal) (h : (fallbackOrFail env file evs).outcome = some (.ok v)) :
    progressStates (fallbackOrFail env file evs).events =
      progressStates evs ++ [.ANALYZING] := by
  by_cases hs : file.size < FORCE_INLINE_FALLBACK_LIMIT
  · simp only [fallbackOrFail, if_pos hs] at h ⊢
    rcases hf : env.fileRead with m | d
    · simp [runInline, hf] at h
    · simp [runInline, hf, runGenerate_events, progressStates_append, progressStates]
  · simp [fallbackOrFail, hs] at h

theorem runStaged_progress (env : Env) (file : FileInfo) :
    progressStates (runStaged env file []).events = [.UPLOADING] ∨
    progressStates (runStaged env file []).events = [.UPLOADING, .ANALYZING] := by
  rcases hu : env.uploadResult with m | up
  · simp only [runStaged, hu, List.nil_append]
    rcases fallbackOrFail_progress env file
        [Event.progress .UPLOADING, Event.net .filesUpload] with h | h
    · left; rw [h]; simp [progressStates]
    · right; rw [h]; simp [progressStates]
  · rcases hp : (waitForFileActive env.pollStates).outcome with _ | e
    · left
      simp [runStaged, hu, hp, progressStates_append, progressStates_replicate_net,
        progressStates]
    · rcases e with e | u
      · simp only [runStaged, hu, hp, List.nil_append]
        rcases fallbackOrFail_progress env file
            ([Event.progress .UPLOADING, Event.net .filesUpload] ++
              List.replicate (waitForFileActive env.pollStates).getCalls
                (Event.net .filesGet)) with h | h
        · left; rw [h]
          simp [progressStates_append, progressStates_replicate_net, progressStates]
        · right; rw [h]
          simp [progressStates_append, progressStates_replicate_net, progressStates]
      · right
        cases u
        simp [runStaged, hu, hp, runGenerate_events, progressStates_append,
          progressStates_replicate_net, progressStates]

theorem runStaged_success_progress (env : Env) (file : FileInfo) (v : JVal)
    (h : (runStaged env file []).outcome = some (.ok v)) :
    progressStates (runStaged env file []).events = [.UPLOADING, .ANALYZING] := by
  rcases hu : env.uploadResult with m | up
  · simp only [runStaged, hu, List.nil_append] at h ⊢
    rw [fallbackOrFail_success_progress env file _ v h]
    simp [progressStates]
  · rcases hp : (waitForFileActive env.pollStates).outcome with _ | e
    · simp [runStaged, hu, hp] at h
    · rcases e with e | u
      · simp only [runStaged, hu, hp, List.nil_append] at h ⊢
        rw [fallbackOrFail_success_progress env file _ v h]
        simp [progressStates_append, progressStates_replicate_net, progressStates]
      · cases u
        simp [runStaged, hu, hp, runGenerate_events, progressStates_append,
          progressStates_replicate_net, progressStates]

/-! ## Claims -/

/-- C1, counterexample: a file exactly at the 500MB absolute ceiling is not
rejected before network activity.  With a present credential and collaborators
that succeed, `analyzeVideoContent` performs the staged upload (a network
call), polls, invokes the model, and returns a successful result — no
precondition error and strictly more than zero network interactions. -/
theorem c1_counterexample :
    (analyzeVideoContent sampleBigFile (some "secret") happyEnv).outcome
      = some (.ok (.jarr [])) ∧
    Event.net NetCall.filesUpload ∈
      (analyzeVideoContent sampleBigFile (some "secret") happyEnv).events := by
  exact ⟨rfl, by decide⟩

/-- C1, amended: `analyzeVideoContent` does not check the 500MB ceiling up
front.  For a file at or above `FORCE_INLINE_FALLBACK_LIMIT` it first emits
`UPLOADING` and attempts the staged upload; only when that upload call fails
does it throw the too-large error, whose message quotes the file's size in
rounded megabytes — i.e. the size-quoting failure happens after one network
interaction, not before any. -/
theorem c1_theorem (file : FileInfo) (ov : Option String) (env : Env) (e : String)
    (hkey : jsFalsy (jsOr ov env.envApiKey) = false)
    (hsize : FORCE_INLINE_FALLBACK_LIMIT ≤ file.size)
    (hup : env.uploadResult = .error e) :
    (analyzeVideoContent file ov env).outcome =
      some (.error (.uploadTooLarge file.size)) ∧
    (analyzeVideoContent file ov env).events =
      [.progress .UPLOADING, .net .filesUpload] ∧
    errorMessage (.uploadTooLarge file.size) =
      "File upload failed and file is too large for browser processing (" ++
        toString (mbRounded file.size) ++ "MB). Try a smaller file." := by
  have hle : PREFER_INLINE_THRESHOLD ≤ FORCE_INLINE_FALLBACK_LIMIT := by
    norm_num [PREFER_INLINE_THRESHOLD, FORCE_INLINE_FALLBACK_LIMIT]
  have hns : ¬ file.size < PREFER_INLINE_THRESHOLD :=
    Nat.not_lt.mpr (le_trans hle hsize)
  have hnf : ¬ file.size < FORCE_INLINE_FALLBACK_LIMIT := Nat.not_lt.mpr hsize
  refine ⟨?_, ?_, rfl⟩ <;>
    simp [analyzeVideoContent, hkey, hns, runStaged, hup, fallbackOrFail, hnf]

/-- C1, witness: a 600MB file whose staged upload throws yields the
size-quoting too-large error after the upload attempt. -/
theorem c1_witness :
    (analyzeVideoContent sampleHugeFile (some "secret") uploadFailEnv).outcome =
      some (.error (.uploadTooLarge sampleHugeFile.size)) ∧
    (analyzeVideoContent sampleHugeFile (some "secret") uploadFailEnv).events =
      [.progress .UPLOADING, .net .filesUpload] ∧
    errorMessage (.uploadTooLarge sampleHugeFile.size) =
      "File upload failed and file is too large for browser processing (" ++
        toString (mbRounded sampleHugeFile.size) ++ "MB). Try a smaller file." :=
  c1_theorem sampleHugeFile (some "secret") uploadFailEnv "CORS"
    (by decide) (by decide) rfl

/-- C2, counterexample: the polling loop has no configured bound.  There is no
number of consecutive `processing` responses after which `waitForFileActive`
has terminated (with a timeout error or otherwise): on an all-`PROCESSING`
response trace of any length its outcome is still pending. -/
theorem c2_counterexample :
    ¬ ∃ B : Nat,
      ((waitForFileActive (List.replicate B "PROCESSING")).outcome).isSome = true := by
  rintro ⟨B, hB⟩
  cases B with
  | zero => simp [waitForFileActive_nil] at hB
  | succ n =>
    rw [List.replicate_succ, waitForFileActive_cons,
      pollStep_replicate_processing n] at hB
    simp at hB

/-- C2, amended: the polling loop is unbounded.  For a staged asset whose
status never leaves `PROCESSING`, `waitForFileActive` never terminates and
never produces a timeout error: after consuming any number `k` of
`PROCESSING` responses its outcome is still pending and it has issued `k`
status fetches, one per response. -/
theorem c2_theorem (k : Nat) :
    (waitForFileActive (List.replicate k "PROCESSING")).outcome = none ∧
    (waitForFileActive (List.replicate k "PROCESSING")).getCalls = k := by
  cases k with
  | zero => exact ⟨rfl, rfl⟩
  | succ n =>
    rw [List.replicate_succ, waitForFileActive_cons, pollStep_replicate_processing n]
    exact ⟨rfl, rfl⟩

/-- C2, witness: after five consecutive `PROCESSING` responses the poller is
still pending, having fetched five times. -/
theorem c2_witness :
    (waitForFileActive (List.replicate 5 "PROCESSING")).outcome = none ∧
    (waitForFileActive (List.replicate 5 "PROCESSING")).getCalls = 5 :=
  c2_theorem 5

/-- C3: when the resolved credential is falsy (no override and no environment
key, or both empty), `analyzeVideoContent` fails immediately with the
missing-credential error, producing an empty event trace — zero network
interactions and zero progress callbacks — and that error is distinct from
every transport, no-response and parse error. -/
theorem c3_theorem (file : FileInfo) (ov : Option String) (env : Env)
    (h : jsFalsy (jsOr ov env.envApiKey) = true) :
    (analyzeVideoContent file ov env).outcome = some (.error .missingApiKey) ∧
    (analyzeVideoContent file ov env).events = [] ∧
    errorMessage .missingApiKey =
      "API Key is missing. Please click the Key icon in the top right to configure it." ∧
    (∀ m, AnalysisError.missingApiKey ≠ .transport m) ∧
    AnalysisError.missingApiKey ≠ .noResponse ∧
    AnalysisError.missingApiKey ≠ .parseError := by
  refine ⟨?_, ?_, rfl, ?_, ?_, ?_⟩ <;> simp [analyzeVideoContent, h]

/-- C3, witness: with no override and no environment key, the invocation on a
5MB file fails with the missing-credential error and an empty trace. -/
theorem c3_witness :
    (analyzeVideoContent sampleSmallFile none happyEnv).outcome =
      some (.error .missingApiKey) ∧
    (analyzeVideoContent sampleSmallFile none happyEnv).events = [] ∧
    errorMessage .missingApiKey =
      "API Key is missing. Please click the Key icon in the top right to configure it." ∧
    (∀ m, AnalysisError.missingApiKey ≠ .transport m) ∧
    AnalysisError.missingApiKey ≠ .noResponse ∧
    AnalysisError.missingApiKey ≠ .parseError :=
  c3_theorem sampleSmallFile none happyEnv (by decide)

/-- C4, counterexample: the progress callback is not always invoked in one of
the two claimed sequences.  For a 500MB file whose staged upload throws, the
invocation fails with only `[UPLOADING]` having been emitted — neither
`[ANALYZING]` nor `[UPLOADING, ANALYZING]`. -/
theorem c4_counterexample :
    progressStates
        (analyzeVideoContent sampleBigFile (some "secret") uploadFailEnv).events =
      [AnalysisState.UPLOADING] ∧
    [AnalysisState.UPLOADING] ≠ [AnalysisState.ANALYZING] ∧
    [AnalysisState.UPLOADING] ≠
      [AnalysisState.UPLOADING, AnalysisState.ANALYZING] := by
  refine ⟨rfl, by decide, by decide⟩

/-- C4, amended: on every invocation the progress-callback sequence is a
prefix of one of the two valid sequences — it is `[]`, `[ANALYZING]`,
`[UPLOADING]` or `[UPLOADING, ANALYZING]`, so `ANALYZING` is never emitted
before `UPLOADING` and nothing is ever out of order — and on every invocation
that returns a successful result the sequence is exactly `[ANALYZING]`
(embedded path) or `[UPLOADING, ANALYZING]` (staged or fallback path). -/
theorem c4_theorem (file : FileInfo) (ov : Option String) (env : Env) :
    (progressStates (analyzeVideoContent file ov env).events = [] ∨
     progressStates (analyzeVideoContent file ov env).events = [.ANALYZING] ∨
     progressStates (analyzeVideoContent file ov env).events = [.UPLOADING] ∨
     progressStates (analyzeVideoContent file ov env).events =
       [.UPLOADING, .ANALYZING]) ∧
    (∀ v, (analyzeVideoContent file ov env).outcome = some (.ok v) →
      progressStates (analyzeVideoContent file ov env).events = [.ANALYZING] ∨
      progressStates (analyzeVideoContent file ov env).events =
        [.UPLOADING, .ANALYZING]) := by
  by_cases hk : jsFalsy (jsOr ov env.envApiKey) = true
  · constructor
    · left; simp [analyzeVideoContent, hk, progressStates]
    · intro v hv; simp [analyzeVideoContent, hk] at hv
  · simp only [Bool.not_eq_true] at hk
    by_cases hs : file.size < PREFER_INLINE_THRESHOLD
    · have hp : progressStates (analyzeVideoContent file ov env).events =
          [.ANALYZING] := by
        simp only [analyzeVideoContent, hk, Bool.false_eq_true, if_false, if_pos hs]
        rw [runInline_progress]
        simp [progressStates]
      exact ⟨Or.inr (Or.inl hp), fun v hv => Or.inl hp⟩
    · have he : analyzeVideoContent file ov env = runStaged env file [] := by
        simp [analyzeVideoContent, hk, hs]
      rw [he]
      constructor
      · rcases runStaged_progress env file with h | h
        · exact Or.inr (Or.inr (Or.inl h))
        · exact Or.inr (Or.inr (Or.inr h))
      · intro v hv
        exact Or.inr (runStaged_success_progress env file v hv)

/-- C4, witness: a successful 5MB embedded-path run emits exactly
`[ANALYZING]`, one of the allowed sequences. -/
theorem c4_witness :
    (progressStates
        (analyzeVideoContent sampleSmallFile (some "secret") happyEnv).events = [] ∨
     progressStates
        (analyzeVideoContent sampleSmallFile (some "secret") happyEnv).events =
       [.ANALYZING] ∨
     progressStates
        (analyzeVideoContent sampleSmallFile (some "secret") happyEnv).events =
       [.UPLOADING] ∨
     progressStates
        (analyzeVideoContent sampleSmallFile (some "secret") happyEnv).events =
       [.UPLOADING, .ANALYZING]) ∧
    (∀ v, (analyzeVideoContent sampleSmallFile (some "secret") happyEnv).outcome =
        some (.ok v) →
      progressStates
          (analyzeVideoContent sampleSmallFile (some "secret") happyEnv).events =
        [.ANALYZING] ∨
      progressStates
          (analyzeVideoContent sampleSmallFile (some "secret") happyEnv).events =
        [.UPLOADING, .ANALYZING]) :=
  c4_theorem sampleSmallFile (some "secret") happyEnv

/-- C5: for every file strictly below `PREFER_INLINE_THRESHOLD`,
`analyzeVideoContent` never calls the staged-upload collaborator — no
`ai.files.upload` and no `ai.files.get` network event occurs — and whenever
the file read succeeds (credential present) the inference request carries the
embedded inline-base64 encoding of the file. -/
theorem c5_theorem (file : FileInfo) (ov : Option String) (env : Env)
    (hsmall : file.size < PREFER_INLINE_THRESHOLD) :
    Event.net .filesUpload ∉ (analyzeVideoContent file ov env).events ∧
    Event.net .filesGet ∉ (analyzeVideoContent file ov env).events ∧
    (jsFalsy (jsOr ov env.envApiKey) = false →
      ∀ d, env.fileRead = .ok d →
        (analyzeVideoContent file ov env).events =
          [Event.progress .ANALYZING,
           Event.net (.generateContent (.inlineData d file.mimeType))]) := by
  by_cases hk : jsFalsy (jsOr ov env.envApiKey) = true
  · simp [analyzeVideoContent, hk]
  · simp only [Bool.not_eq_true] at hk
    rcases hf : env.fileRead with m | d
    · refine ⟨?_, ?_, ?_⟩ <;>
        simp [analyzeVideoContent, hk, hsmall, runInline, hf, runGenerate]
    · rcases hg : env.genResult with m | text <;>
        refine ⟨?_, ?_, ?_⟩ <;>
          simp [analyzeVideoContent, hk, hsmall, runInline, hf, runGenerate, hg]

/-- C5, witness: a 5MB file with all collaborators succeeding emits exactly
the `ANALYZING` progress event and one inline-encoded inference call. -/
theorem c5_witness :
    Event.net .filesUpload ∉
      (analyzeVideoContent sampleSmallFile (some "secret") happyEnv).events ∧
    Event.net .filesGet ∉
      (analyzeVideoContent sampleSmallFile (some "secret") happyEnv).events ∧
    (jsFalsy (jsOr (some "secret") happyEnv.envApiKey) = false →
      ∀ d, happyEnv.fileRead = .ok d →
        (analyzeVideoContent sampleSmallFile (some "secret") happyEnv).events =
          [Event.progress .ANALYZING,
           Event.net (.generateContent (.inlineData d sampleSmallFile.mimeType))]) :=
  c5_theorem sampleSmallFile (some "secret") happyEnv (by decide)

/-- C6: the poller waits the fixed 2000ms initial delay, then fetches; while
the state is `PROCESSING` it repeats with the fixed 3000ms inter-poll delay;
it returns successfully exactly when the state becomes `ACTIVE`, and on any
other terminal state it fails with the error naming that state (whose message
is `File processing failed with state: <state>`). -/
theorem c6_theorem (k : Nat) (s : String) (hs : ¬ s = "PROCESSING") :
    waitForFileActive (List.replicate k "PROCESSING" ++ [s]) =
      { outcome := some (if s = "ACTIVE" then .ok ()
                         else .error (.processingFailed s)),
        delaysMs := 2000 :: List.replicate k 3000,
        getCalls := k + 1 } ∧
    errorMessage (.processingFailed s) = "File processing failed with state: " ++ s := by
  refine ⟨?_, rfl⟩
  cases k with
  | zero =>
    rw [List.replicate, List.nil_append, waitForFileActive_cons,
      pollStep_terminal s [] hs]; rfl
  | succ n =>
    rw [List.replicate_succ, List.cons_append, waitForFileActive_cons,
      pollStep_replicate_terminal n s hs]

/-- C6, witness: one `PROCESSING` response followed by `FAILED` produces the
delays 2000ms then 3000ms, two fetches, and the error naming `FAILED`. -/
theorem c6_witness :
    waitForFileActive ["PROCESSING", "FAILED"] =
      { outcome := some (.error (.processingFailed "FAILED")),
        delaysMs := [2000, 3000],
        getCalls := 2 } ∧
    errorMessage (.processingFailed "FAILED") =
      "File processing failed with state: FAILED" :=
  c6_theorem 1 "FAILED" (by decide)

/-- C7: an absent or empty response text yields the distinct
`No response from model` failure; a non-empty but syntactically invalid text
yields the distinct parse failure; and both are different from each other and
from every transport failure (which `runGenerate` surfaces as a transport
error carrying the thrown message). -/
theorem c7_theorem :
    parseModelResponse none = .error .noResponse ∧
    parseModelResponse (some "") = .error .noResponse ∧
    (∀ t, ¬ t = "" → jsonParse t = none →
      parseModelResponse (some t) = .error .parseError) ∧
    AnalysisError.noResponse ≠ .parseError ∧
    (∀ m, AnalysisError.noResponse ≠ .transport m ∧
      AnalysisError.parseError ≠ .transport m) ∧
    (∀ (env : Env) (part : VideoPart) (evs : List Event) (m : String),
      env.genResult = .error m →
      (runGenerate env part evs).outcome = some (.error (.transport m))) := by
  refine ⟨rfl, rfl, ?_, by simp, fun m => ⟨by simp, by simp⟩, ?_⟩
  · intro t ht hj
    simp [parseModelResponse, ht, hj]
  · intro env part evs m hg
    simp [runGenerate, hg]

/-- C7, witness: the non-empty, non-JSON text `not json` yields the parse
failure. -/
theorem c7_witness :
    parseModelResponse (some "not json") = .error .parseError :=
  c7_theorem.2.2.1 "not json" (by decide) rfl

/-- C8: the parser passes field values through unchanged with no semantic
validation: any successfully parsed JSON value is returned as-is, and in
particular the concrete response carrying severity `4` (outside `{1,3,5}`)
and confidence `1.5` (outside `[0,1]`) is returned with exactly those
values. -/
theorem c8_theorem :
    (∀ t v, jsonParse t = some v → parseModelResponse (some t) = .ok v) ∧
    parseModelResponse (some sampleResponseText) = .ok sampleResponseVal ∧
    (jnumVal 4 0 ≠ 1 ∧ jnumVal 4 0 ≠ 3 ∧ jnumVal 4 0 ≠ 5) ∧
    1 < jnumVal 15 (-1) := by
  refine ⟨?_, rfl, ⟨?_, ?_, ?_⟩, ?_⟩
  · intro t v hj
    have ht : ¬ t = "" := by
      intro h
      rw [h] at hj
      exact absurd ((show jsonParse "" = none from rfl) ▸ hj) (by simp)
    simp [parseModelResponse, ht, hj]
  · norm_num [jnumVal]
  · norm_num [jnumVal]
  · norm_num [jnumVal]
  · norm_num [jnumVal]

/-- C8, witness: a concrete object parses and is passed through unchanged. -/
theorem c8_witness :
    parseModelResponse (some "\x7b\"a\":1\x7d") = .ok (.jobj [("a", .jnum 1 0)]) :=
  c8_theorem.1 "\x7b\"a\":1\x7d" (.jobj [("a", .jnum 1 0)]) rfl

/-- C9: an empty-string credential override is treated identically to no
override — the resulting invocation is the same in outcome and events for
every environment — and the missing-credential error is raised exactly when
both the override and the environment credential are absent or empty. -/
theorem c9_theorem :
    (∀ (file : FileInfo) (env : Env),
      analyzeVideoContent file (some "") env = analyzeVideoContent file none env) ∧
    (∀ (file : FileInfo) (ov : Option String) (env : Env),
      ((analyzeVideoContent file ov env).outcome = some (.error .missingApiKey) ↔
        (jsFalsy ov = true ∧ jsFalsy env.envApiKey = true))) := by
  constructor
  · intro file env
    have h : jsOr (some "") env.envApiKey = jsOr none env.envApiKey := by
      simp [jsOr, jsFalsy]
    simp only [analyzeVideoContent, h]
  · intro file ov env
    constructor
    · intro h
      by_cases hk : jsFalsy (jsOr ov env.envApiKey) = true
      · have h2 := jsFalsy_jsOr ov env.envApiKey
        rw [hk] at h2
        exact ⟨((Bool.and_eq_true _ _).mp h2.symm).1,
               ((Bool.and_eq_true _ _).mp h2.symm).2⟩
      · exfalso
        simp only [Bool.not_eq_true] at hk
        simp only [analyzeVideoContent, hk, Bool.false_eq_true, if_false] at h
        by_cases hs : file.size < PREFER_INLINE_THRESHOLD
        · rw [if_pos hs] at h
          exact runInline_ne_missing env file _ h
        · rw [if_neg hs] at h
          exact runStaged_ne_missing env file _ h
    · rintro ⟨h1, h2⟩
      have hk : jsFalsy (jsOr ov env.envApiKey) = true := by
        rw [jsFalsy_jsOr, h1, h2]; rfl
      simp [analyzeVideoContent, hk]

/-- C9, witness: on a 5MB file with an unset environment key, the
empty-override invocation coincides with the no-override invocation, and its
missing-credential failure is equivalent to both credentials being falsy. -/
theorem c9_witness :
    analyzeVideoContent sampleSmallFile (some "") happyEnv =
      analyzeVideoContent sampleSmallFile none happyEnv ∧
    ((analyzeVideoContent sampleSmallFile none happyEnv).outcome =
        some (.error .missingApiKey) ↔
      (jsFalsy (none : Option String) = true ∧
        jsFalsy happyEnv.envApiKey = true)) :=
  ⟨c9_theorem.1 sampleSmallFile happyEnv, c9_theorem.2 sampleSmallFile none happyEnv⟩

/-- C10: the result handling enforces only JSON syntax, never the declared
shape: the shapeless texts with an empty object and an empty array both parse
to successful results, and in general every syntactically valid JSON text is
returned as a successful result with no structural validation. -/
theorem c10_theorem :
    parseModelResponse (some "\x7b\x7d") = .ok (.jobj []) ∧
    parseModelResponse (some "[]") = .ok (.jarr []) ∧
    (∀ t v, jsonParse t = some v → parseModelResponse (some t) = .ok v) := by
  refine ⟨rfl, rfl, ?_⟩
  intro t v hj
  have ht : ¬ t = "" := by
    intro h
    rw [h] at hj
    exact absurd ((show jsonParse "" = none from rfl) ▸ hj) (by simp)
  simp [parseModelResponse, ht, hj]

/-- C10, witness: the shapeless JSON array `[true]` is returned as a
successful result. -/
theorem c10_witness :
    parseModelResponse (some "[true]") = .ok (.jarr [.jbool true]) :=
  c10_theorem.2.2 "[true]" (.jarr [.jbool true]) rfl

end Sentinal
